import Mathlib

set_option maxHeartbeats 1000000

/-- The padding sentinel character (the null character appended by construction). -/
def nullChar : Char := Char.ofNat 0

/-- The eight search directions of the puzzle. -/
inductive Direction where
  | RIGHT
  | BOTTOM
  | LEFT
  | TOP
  | BOTTOMRIGHT
  | BOTTOMLEFT
  | TOPRIGHT
  | TOPLEFT
deriving DecidableEq

/-- Unit (row delta, column delta) steps of each direction. -/
def DIRECTION_DELTAS : Direction → Int × Int
  | .RIGHT => (0, 1)
  | .LEFT => (0, -1)
  | .BOTTOM => (1, 0)
  | .TOP => (-1, 0)
  | .BOTTOMRIGHT => (1, 1)
  | .BOTTOMLEFT => (1, -1)
  | .TOPRIGHT => (-1, 1)
  | .TOPLEFT => (-1, -1)

/-- Reverse each line in a list of lines. -/
def reverse_lines (lines : List (List Char)) : List (List Char) :=
  lines.map List.reverse

/-- A found word position: start cell and reading direction. -/
structure WordPosition where
  row : Int
  column : Int
  direction : Direction
deriving DecidableEq

/-- The cells occupied by a word of the given length placed at this position. -/
def WordPosition.cells (p : WordPosition) (length : Nat) : List (Int × Int) :=
  (List.range length).map (fun (i : Nat) =>
    (p.row + (i : Int) * (DIRECTION_DELTAS p.direction).1,
     p.column + (i : Int) * (DIRECTION_DELTAS p.direction).2))

/-- A search field: padded rows of characters and the common row width. -/
structure SearchField where
  lines : List (List Char)
  width : Nat
deriving DecidableEq

/-- Maximum of a list of naturals (0 for the empty list). -/
def listMax (xs : List Nat) : Nat := xs.foldl Nat.max 0

/-- Construction: width is the maximum input row length, each row padded on the
right with the sentinel; fails (as the source does) on an empty row sequence. -/
def SearchField.make (input : List (List Char)) : Option SearchField :=
  match input with
  | [] => none
  | _ :: _ =>
    let w := listMax (input.map List.length)
    some ⟨input.map (fun line => line ++ List.replicate (w - line.length) nullChar), w⟩

/-- Join lines with newline characters. -/
def joinNewline : List (List Char) → List Char
  | [] => []
  | [l] => l
  | l :: l2 :: rest => l ++ '\n' :: joinNewline (l2 :: rest)

/-- Render the grid back to newline-joined text, substituting for the sentinel. -/
def SearchField.as_text (f : SearchField) (empty_char : Char) : List Char :=
  (joinNewline f.lines).map (fun c => if c = nullChar then empty_char else c)

/-- Number of rows. -/
def SearchField.height (f : SearchField) : Nat := f.lines.length

/-- Well-formedness established by construction: nonempty rows, all of width length. -/
def SearchField.WF (f : SearchField) : Prop :=
  f.lines ≠ [] ∧ ∀ l ∈ f.lines, l.length = f.width

instance (f : SearchField) : Decidable f.WF := by
  unfold SearchField.WF
  infer_instance

/-- Columns of the grid, read top to bottom. -/
def SearchField.transposedLines (f : SearchField) : List (List Char) :=
  (List.range f.width).map (fun j => f.lines.map (fun line => line.getD j nullChar))

/-- Start cell of the diag_i-th top-left-to-bottom-right diagonal: with
d = width - 1 - diag_i, the start row is max (-d) 0 and the column is row + d. -/
def SearchField.bottomrightDiagonalStart (f : SearchField) (diag_i : Nat) : Int × Int :=
  (max (-((f.width : Int) - 1 - (diag_i : Int))) 0,
   max (-((f.width : Int) - 1 - (diag_i : Int))) 0 + ((f.width : Int) - 1 - (diag_i : Int)))

/-- Start cell of the diag_i-th bottom-left-to-top-right diagonal: the start row
is min diag_i (height - 1) and the column is diag_i - row. -/
def SearchField.toprightDiagonalStart (f : SearchField) (diag_i : Nat) : Int × Int :=
  (min (diag_i : Int) ((f.height : Int) - 1),
   (diag_i : Int) - min (diag_i : Int) ((f.height : Int) - 1))

/-- Length of the diag_i-th diagonal (shared by both diagonal families). -/
def SearchField.diagonalLength (f : SearchField) (diag_i : Nat) : Int :=
  min ((f.height : Int) - (f.bottomrightDiagonalStart diag_i).1)
      ((diag_i : Int) + 1 - (f.bottomrightDiagonalStart diag_i).1)

/-- Total cell access used by the register construction; every use is in range. -/
def SearchField.cellD (f : SearchField) (r c : Int) : Char :=
  (f.lines.getD r.toNat []).getD c.toNat nullChar

/-- Cell access reporting out-of-range as none. -/
def SearchField.cellGet (f : SearchField) (r c : Int) : Option Char :=
  if 0 ≤ r ∧ 0 ≤ c then
    (f.lines.getD r.toNat []).get? c.toNat
  else none

/-- The BOTTOMRIGHT line family: each diagonal read toward increasing row and column. -/
def SearchField.bottomrightLines (f : SearchField) : List (List Char) :=
  (List.range (f.width + f.height - 1)).map (fun (k : Nat) =>
    (List.range (f.diagonalLength k).toNat).map (fun (i : Nat) =>
      f.cellD ((f.bottomrightDiagonalStart k).1 + (i : Int))
              ((f.bottomrightDiagonalStart k).2 + (i : Int))))

/-- The TOPRIGHT line family: each diagonal read by decreasing row, increasing column. -/
def SearchField.toprightLines (f : SearchField) : List (List Char) :=
  (List.range (f.width + f.height - 1)).map (fun (k : Nat) =>
    (List.range (f.diagonalLength k).toNat).map (fun (i : Nat) =>
      f.cellD ((f.toprightDiagonalStart k).1 - (i : Int))
              ((f.toprightDiagonalStart k).2 + (i : Int))))

/-- The eight direction line families used for substring search. -/
def SearchField.searchRegisters (f : SearchField) : Direction → List (List Char)
  | .RIGHT => f.lines
  | .LEFT => reverse_lines f.lines
  | .BOTTOM => f.transposedLines
  | .TOP => reverse_lines f.transposedLines
  | .BOTTOMRIGHT => f.bottomrightLines
  | .TOPLEFT => reverse_lines f.bottomrightLines
  | .TOPRIGHT => f.toprightLines
  | .BOTTOMLEFT => reverse_lines f.toprightLines

/-- Insertion order of the registers mapping, used as the default direction order. -/
def registerKeyOrder : List Direction :=
  [.RIGHT, .LEFT, .BOTTOM, .TOP, .BOTTOMRIGHT, .TOPLEFT, .TOPRIGHT, .BOTTOMLEFT]

/-- Recover the grid start cell of a match from direction, line index and offset. -/
def SearchField.regularizeRegisterPosition (f : SearchField) (direction : Direction)
    (line_i find_i : Nat) : Int × Int :=
  match direction with
  | .RIGHT => ((line_i : Int), (find_i : Int))
  | .LEFT => ((line_i : Int), (f.width : Int) - (find_i : Int) - 1)
  | .BOTTOM => ((find_i : Int), (line_i : Int))
  | .TOP => ((f.height : Int) - (find_i : Int) - 1, (line_i : Int))
  | .BOTTOMRIGHT =>
    ((f.bottomrightDiagonalStart line_i).1 + (find_i : Int),
     (f.bottomrightDiagonalStart line_i).2 + (find_i : Int))
  | .TOPLEFT =>
    ((f.bottomrightDiagonalStart line_i).1 + f.diagonalLength line_i - (find_i : Int) - 1,
     (f.bottomrightDiagonalStart line_i).2 + f.diagonalLength line_i - (find_i : Int) - 1)
  | .TOPRIGHT =>
    ((f.toprightDiagonalStart line_i).1 - (find_i : Int),
     (f.toprightDiagonalStart line_i).2 + (find_i : Int))
  | .BOTTOMLEFT =>
    ((f.toprightDiagonalStart line_i).1 - f.diagonalLength line_i + (find_i : Int) + 1,
     (f.toprightDiagonalStart line_i).2 + f.diagonalLength line_i - (find_i : Int) - 1)

/-- Leftmost occurrence of word as a contiguous substring of line (str.find). -/
def findSub : List Char → List Char → Option Nat
  | [], word => if word = [] then some 0 else none
  | c :: rest, word =>
    if (c :: rest).take word.length = word then some 0
    else (findSub rest word).map (fun n => n + 1)

/-- Failures of the search, mirroring the exceptions raised by the source. -/
inductive SearchError where
  | notImplemented (msg : String)
  | wordsNotFound (words : List (List Char))
  | invalidNotFound (arg : String)
deriving DecidableEq

/-- Collapse duplicate words, keeping first occurrences. -/
def dedupFirst (words : List (List Char)) : List (List Char) :=
  words.foldl (fun acc w => if w ∈ acc then acc else acc ++ [w]) []

/-- Scan one register line: record every remaining word occurring in the line at its
leftmost offset, and drop the found words from the remaining pool. -/
def SearchField.scanLine (f : SearchField) (direction : Direction) (line_i : Nat)
    (line : List Char)
    (acc : List (List Char × WordPosition) × List (List Char)) :
    List (List Char × WordPosition) × List (List Char) :=
  (acc.1 ++ (acc.2.filter (fun w => (findSub line w).isSome)).map (fun w =>
      (w, ⟨(f.regularizeRegisterPosition direction line_i ((findSub line w).getD 0)).1,
           (f.regularizeRegisterPosition direction line_i ((findSub line w).getD 0)).2,
           direction⟩)),
   acc.2.filter (fun w => !(findSub line w).isSome))

/-- Scan all lines of one direction in increasing line index order. -/
def SearchField.scanDirection (f : SearchField)
    (acc : List (List Char × WordPosition) × List (List Char)) (direction : Direction) :
    List (List Char × WordPosition) × List (List Char) :=
  (f.searchRegisters direction).enum.foldl
    (fun a p => f.scanLine direction p.1 p.2 a) acc

/-- Scan the given directions in order, starting from the deduplicated word pool. -/
def SearchField.scanAll (f : SearchField) (words : List (List Char))
    (dirs : List Direction) :
    List (List Char × WordPosition) × List (List Char) :=
  dirs.foldl f.scanDirection ([], dedupFirst words)

/-- The word search: first match wins over the direction order, then the
not-found policy classifies any unmatched words. -/
def SearchField.find_words (f : SearchField) (words : List (List Char))
    (not_found : String) (multiple_finds : String)
    (allowed_directions : Option (List Direction)) :
    Except SearchError (List (List Char × Option WordPosition)) :=
  if multiple_finds ≠ "first" then
    .error (.notImplemented "multiple find detection/reconciliation not implemented")
  else if (f.scanAll words (allowed_directions.getD registerKeyOrder)).2 = [] then
    .ok ((f.scanAll words (allowed_directions.getD registerKeyOrder)).1.map
      (fun p => (p.1, some p.2)))
  else if not_found = "error" then
    .error (.wordsNotFound (f.scanAll words (allowed_directions.getD registerKeyOrder)).2)
  else if not_found = "keep" then
    .ok ((f.scanAll words (allowed_directions.getD registerKeyOrder)).1.map
        (fun p => (p.1, some p.2))
      ++ (f.scanAll words (allowed_directions.getD registerKeyOrder)).2.map
        (fun w => (w, (none : Option WordPosition))))
  else if not_found = "ignore" then
    .ok ((f.scanAll words (allowed_directions.getD registerKeyOrder)).1.map
      (fun p => (p.1, some p.2)))
  else .error (.invalidNotFound not_found)

instance {ε α : Type} [DecidableEq ε] [DecidableEq α] : DecidableEq (Except ε α) := fun x y =>
  match x, y with
  | .ok a, .ok b => if h : a = b then .isTrue (by rw [h]) else .isFalse (by simp [h])
  | .error a, .error b => if h : a = b then .isTrue (by rw [h]) else .isFalse (by simp [h])
  | .ok _, .error _ => .isFalse (by simp)
  | .error _, .ok _ => .isFalse (by simp)

/-- A solution: the searched field together with the word position mapping. -/
structure Solution where
  field : SearchField
  word_positions : List (List Char × Option WordPosition)
deriving DecidableEq

/-- Solve: search and wrap the result with the field. -/
def SearchField.solve (f : SearchField) (words : List (List Char))
    (not_found : String) (multiple_finds : String)
    (allowed_directions : Option (List Direction)) : Except SearchError Solution :=
  (f.find_words words not_found multiple_finds allowed_directions).map
    (fun finds => ⟨f, finds⟩)

/-- Mark one mask cell true (in-range updates only, as in the source's uses). -/
def setCellTrue (mask : List (List Bool)) (r c : Int) : List (List Bool) :=
  if 0 ≤ r ∧ 0 ≤ c then
    mask.set r.toNat ((mask.getD r.toNat []).set c.toNat true)
  else mask

/-- The boolean occupancy mask of the solution. -/
def Solution.array_mask (s : Solution) : List (List Bool) :=
  s.word_positions.foldl
    (fun mask wp =>
      match wp.2 with
      | none => mask
      | some pos => (pos.cells wp.1.length).foldl (fun m rc => setCellTrue m rc.1 rc.2) mask)
    (List.replicate s.field.height (List.replicate s.field.width false))

/-- Row-major concatenation of the unmasked grid characters. -/
def Solution.remaining_text (s : Solution) : List Char :=
  (s.field.lines.zip s.array_mask).flatMap (fun rowPair =>
    (rowPair.1.zip rowPair.2).filterMap (fun cp => if cp.2 then none else some cp.1))

/-- Printable mask: found cells as found_char, the rest as remaining_char. -/
def Solution.string_mask (s : Solution) (found_char remaining_char : Char) : List Char :=
  joinNewline (s.array_mask.map (fun row =>
    row.map (fun b => if b then found_char else remaining_char)))

/-- Directions of the found positions of a search result. -/
def positionsDirections (res : List (List Char × Option WordPosition)) : List Direction :=
  res.filterMap (fun p => p.2.map WordPosition.direction)

/-- The 3 by 3 field of the small test scenarios (already padded: no padding needed). -/
def smallField : SearchField :=
  ⟨["GHU".toList, "BRQ".toList, "HJI".toList], 3⟩

/-- The direction order the specification claims as the default search order. -/
def claimedDirectionOrder : List Direction :=
  [.RIGHT, .BOTTOM, .LEFT, .TOP, .BOTTOMRIGHT, .BOTTOMLEFT, .TOPRIGHT, .TOPLEFT]

/-- A 2 by 2 field separating the claimed direction order from the real one. -/
def cexField : SearchField :=
  ⟨["AX".toList, "BA".toList], 2⟩

/-- The 4 by 5 field of the bigger test scenario. -/
def bigField : SearchField :=
  ⟨["RUSZQ".toList, "WANAR".toList, "XNUVE".toList, "DIYFU".toList], 5⟩

/-- The word list of the bigger test scenario. -/
def bigWords : List (List Char) :=
  ["VUN".toList, "FUA".toList, "XAS".toList, "EF".toList, "SAE".toList, "SNU".toList]

/-- The word position mapping found for the small scenario. -/
def smallExpected : List (List Char × Option WordPosition) :=
  [("BRQ".toList, some ⟨1, 0, .RIGHT⟩), ("JH".toList, some ⟨2, 1, .LEFT⟩),
   ("UQ".toList, some ⟨0, 2, .BOTTOM⟩), ("JR".toList, some ⟨2, 1, .TOP⟩)]

/-- The solution of the small scenario. -/
def smallSolution : Solution := ⟨smallField, smallExpected⟩

/-- The word position mapping found for the bigger scenario. -/
def bigExpected : List (List Char × Option WordPosition) :=
  [("VUN".toList, some ⟨2, 3, .LEFT⟩), ("SNU".toList, some ⟨0, 2, .BOTTOM⟩),
   ("SAE".toList, some ⟨0, 2, .BOTTOMRIGHT⟩), ("FUA".toList, some ⟨3, 3, .TOPLEFT⟩),
   ("XAS".toList, some ⟨2, 0, .TOPRIGHT⟩), ("EF".toList, some ⟨2, 4, .BOTTOMLEFT⟩)]

/-- The solution of the bigger scenario. -/
def bigSolution : Solution := ⟨bigField, bigExpected⟩

theorem findSub_bound (ln word : List Char) (o : Nat)
    (h : findSub ln word = some o) : o + word.length ≤ ln.length := by
  induction ln generalizing o with
  | nil =>
    unfold findSub at h
    split at h
    · rename_i hw
      simp only [Option.some.injEq] at h
      subst h
      simp [hw]
    · simp at h
  | cons c rest ih =>
    unfold findSub at h
    split at h
    · rename_i ht
      simp only [Option.some.injEq] at h
      subst h
      have h2 : ((c :: rest).take word.length).length = word.length := by rw [ht]
      rw [List.length_take] at h2
      simp only [List.length_cons] at h2 ⊢
      omega
    · rcases Option.map_eq_some'.mp h with ⟨n, hn, rfl⟩
      have := ih n hn
      simp only [List.length_cons]
      omega

theorem findSub_reads (ln word : List Char) (o : Nat)
    (h : findSub ln word = some o) :
    ∀ i, i < word.length → ln[o + i]? = word[i]? := by
  induction ln generalizing o with
  | nil =>
    unfold findSub at h
    split at h
    · rename_i hw
      subst hw
      intro i hi
      simp at hi
    · simp at h
  | cons c rest ih =>
    unfold findSub at h
    split at h
    · rename_i ht
      simp only [Option.some.injEq] at h
      subst h
      intro i hi
      simp only [Nat.zero_add]
      rw [← ht, List.getElem?_take_of_lt hi]
    · rcases Option.map_eq_some'.mp h with ⟨n, hn, rfl⟩
      intro i hi
      have harith : n + 1 + i = (n + i) + 1 := by omega
      rw [harith, List.getElem?_cons_succ]
      exact ih n hn i hi

theorem SearchField.WF.height_pos {f : SearchField} (hWF : f.WF) : 0 < f.height :=
  List.length_pos.mpr hWF.1

theorem SearchField.WF.line_length {f : SearchField} (hWF : f.WF) {k : Nat}
    (hk : k < f.lines.length) : (f.lines.getD k []).length = f.width := by
  rw [List.getD_eq_getElem _ _ hk]
  exact hWF.2 _ (List.getElem_mem hk)

theorem SearchField.cellGet_eq_cellD {f : SearchField} (hWF : f.WF) {r c : Int}
    (hr0 : 0 ≤ r) (hc0 : 0 ≤ c) (hr : r < (f.height : Int)) (hc : c < (f.width : Int)) :
    f.cellGet r c = some (f.cellD r c) := by
  unfold SearchField.cellGet SearchField.cellD
  rw [if_pos ⟨hr0, hc0⟩]
  have hrN : r.toNat < f.lines.length := by
    unfold SearchField.height at hr
    omega
  have hlen : (f.lines.getD r.toNat []).length = f.width := hWF.line_length hrN
  have hcN : c.toNat < (f.lines.getD r.toNat []).length := by
    rw [hlen]
    omega
  rw [List.get?_eq_getElem?, List.getElem?_eq_getElem hcN, List.getD_eq_getElem _ _ hcN]

theorem getD_range_map {α : Type} (n k : Nat) (g : Nat → α) (d : α) (hk : k < n) :
    ((List.range n).map g).getD k d = g k := by
  have h1 : k < ((List.range n).map g).length := by simp [hk]
  rw [List.getD_eq_getElem _ _ h1]
  simp

theorem getD_map {α β : Type} (ls : List α) (g : α → β) (o : Nat) (ho : o < ls.length)
    (d : β) (d2 : α) : (ls.map g).getD o d = g (ls.getD o d2) := by
  have h1 : o < (ls.map g).length := by simpa using ho
  rw [List.getD_eq_getElem _ _ h1, List.getD_eq_getElem _ _ ho]
  simp

theorem reverse_lines_length (ls : List (List Char)) :
    (reverse_lines ls).length = ls.length := by
  simp [reverse_lines]

theorem reverse_lines_getD (ls : List (List Char)) (k : Nat) (hk : k < ls.length) :
    (reverse_lines ls).getD k [] = (ls.getD k []).reverse := by
  unfold reverse_lines
  have h1 : k < (ls.map List.reverse).length := by simpa using hk
  rw [List.getD_eq_getElem _ _ h1, List.getD_eq_getElem _ _ hk]
  simp

theorem getD_reverse (l : List Char) (o : Nat) (ho : o < l.length) :
    l.reverse.getD o nullChar = l.getD (l.length - 1 - o) nullChar := by
  have h1 : o < l.reverse.length := by simpa using ho
  rw [List.getD_eq_getElem _ _ h1, List.getD_eq_getElem _ _ (by omega)]
  rw [List.getElem_reverse]

theorem SearchField.transposedLines_length (f : SearchField) :
    f.transposedLines.length = f.width := by
  simp [SearchField.transposedLines]

theorem SearchField.transposedLines_getD (f : SearchField) (k : Nat) (hk : k < f.width) :
    f.transposedLines.getD k [] = f.lines.map (fun l => l.getD k nullChar) := by
  unfold SearchField.transposedLines
  exact getD_range_map _ _ _ _ hk

theorem SearchField.bottomrightLines_getD (f : SearchField) (k : Nat)
    (hk : k < f.width + f.height - 1) :
    f.bottomrightLines.getD k []
      = (List.range (f.diagonalLength k).toNat).map (fun (i : Nat) =>
          f.cellD ((f.bottomrightDiagonalStart k).1 + (i : Int))
                  ((f.bottomrightDiagonalStart k).2 + (i : Int))) := by
  unfold SearchField.bottomrightLines
  exact getD_range_map _ _ _ _ hk

theorem SearchField.toprightLines_getD (f : SearchField) (k : Nat)
    (hk : k < f.width + f.height - 1) :
    f.toprightLines.getD k []
      = (List.range (f.diagonalLength k).toNat).map (fun (i : Nat) =>
          f.cellD ((f.toprightDiagonalStart k).1 - (i : Int))
                  ((f.toprightDiagonalStart k).2 + (i : Int))) := by
  unfold SearchField.toprightLines
  exact getD_range_map _ _ _ _ hk

theorem register_cell_RIGHT (f : SearchField) (hWF : f.WF) (k o : Nat)
    (hk : k < (f.searchRegisters .RIGHT).length)
    (ho : o < ((f.searchRegisters .RIGHT).getD k []).length) :
    f.cellGet (f.regularizeRegisterPosition .RIGHT k o).1
        (f.regularizeRegisterPosition .RIGHT k o).2
      = some (((f.searchRegisters .RIGHT).getD k []).getD o nullChar) := by
  simp only [SearchField.searchRegisters] at hk ho ⊢
  have hreg1 : (f.regularizeRegisterPosition .RIGHT k o).1 = (k : Int) := rfl
  have hreg2 : (f.regularizeRegisterPosition .RIGHT k o).2 = (o : Int) := rfl
  rw [hreg1, hreg2]
  have hlen : (f.lines.getD k []).length = f.width := hWF.line_length hk
  have hoW : (o : Int) < (f.width : Int) := by omega
  have hkH : (k : Int) < (f.height : Int) := by
    unfold SearchField.height
    omega
  rw [SearchField.cellGet_eq_cellD hWF (Int.ofNat_nonneg k) (Int.ofNat_nonneg o) hkH hoW]
  unfold SearchField.cellD
  rw [Int.toNat_ofNat, Int.toNat_ofNat]

theorem register_cell_LEFT (f : SearchField) (hWF : f.WF) (k o : Nat)
    (hk : k < (f.searchRegisters .LEFT).length)
    (ho : o < ((f.searchRegisters .LEFT).getD k []).length) :
    f.cellGet (f.regularizeRegisterPosition .LEFT k o).1
        (f.regularizeRegisterPosition .LEFT k o).2
      = some (((f.searchRegisters .LEFT).getD k []).getD o nullChar) := by
  simp only [SearchField.searchRegisters] at hk ho ⊢
  have hk2 : k < f.lines.length := by
    rw [reverse_lines_length] at hk
    exact hk
  rw [reverse_lines_getD _ _ hk2] at ho ⊢
  have hlen : (f.lines.getD k []).length = f.width := hWF.line_length hk2
  have ho2 : o < f.width := by
    rw [List.length_reverse, hlen] at ho
    exact ho
  have hreg1 : (f.regularizeRegisterPosition .LEFT k o).1 = (k : Int) := rfl
  have hreg2 : (f.regularizeRegisterPosition .LEFT k o).2
      = (f.width : Int) - (o : Int) - 1 := rfl
  rw [hreg1, hreg2]
  have hkH : (k : Int) < (f.height : Int) := by
    unfold SearchField.height
    omega
  rw [SearchField.cellGet_eq_cellD hWF (Int.ofNat_nonneg k) (by omega) hkH (by omega)]
  unfold SearchField.cellD
  rw [Int.toNat_ofNat]
  rw [getD_reverse _ _ (by omega), hlen]
  have htn : ((f.width : Int) - (o : Int) - 1).toNat = f.width - 1 - o := by omega
  rw [htn]

theorem register_cell_BOTTOM (f : SearchField) (hWF : f.WF) (k o : Nat)
    (hk : k < (f.searchRegisters .BOTTOM).length)
    (ho : o < ((f.searchRegisters .BOTTOM).getD k []).length) :
    f.cellGet (f.regularizeRegisterPosition .BOTTOM k o).1
        (f.regularizeRegisterPosition .BOTTOM k o).2
      = some (((f.searchRegisters .BOTTOM).getD k []).getD o nullChar) := by
  simp only [SearchField.searchRegisters] at hk ho ⊢
  have hk2 : k < f.width := by
    rw [SearchField.transposedLines_length] at hk
    exact hk
  rw [f.transposedLines_getD k hk2] at ho ⊢
  have ho2 : o < f.lines.length := by simpa using ho
  have hreg1 : (f.regularizeRegisterPosition .BOTTOM k o).1 = (o : Int) := rfl
  have hreg2 : (f.regularizeRegisterPosition .BOTTOM k o).2 = (k : Int) := rfl
  rw [hreg1, hreg2]
  have hoH : (o : Int) < (f.height : Int) := by
    unfold SearchField.height
    omega
  rw [SearchField.cellGet_eq_cellD hWF (Int.ofNat_nonneg o) (Int.ofNat_nonneg k) hoH (by omega)]
  unfold SearchField.cellD
  rw [Int.toNat_ofNat, Int.toNat_ofNat]
  rw [getD_map _ _ _ ho2 nullChar []]

theorem register_cell_TOP (f : SearchField) (hWF : f.WF) (k o : Nat)
    (hk : k < (f.searchRegisters .TOP).length)
    (ho : o < ((f.searchRegisters .TOP).getD k []).length) :
    f.cellGet (f.regularizeRegisterPosition .TOP k o).1
        (f.regularizeRegisterPosition .TOP k o).2
      = some (((f.searchRegisters .TOP).getD k []).getD o nullChar) := by
  simp only [SearchField.searchRegisters] at hk ho ⊢
  have hk2 : k < f.width := by
    rw [reverse_lines_length, SearchField.transposedLines_length] at hk
    exact hk
  have hk3 : k < f.transposedLines.length := by
    rw [SearchField.transposedLines_length]
    exact hk2
  rw [reverse_lines_getD _ _ hk3] at ho ⊢
  rw [f.transposedLines_getD k hk2] at ho ⊢
  have ho2 : o < f.lines.length := by simpa using ho
  have hreg1 : (f.regularizeRegisterPosition .TOP k o).1
      = (f.height : Int) - (o : Int) - 1 := rfl
  have hreg2 : (f.regularizeRegisterPosition .TOP k o).2 = (k : Int) := rfl
  rw [hreg1, hreg2]
  have hhH : 0 < f.height := hWF.height_pos
  have hoH : o < f.height := by
    unfold SearchField.height
    omega
  rw [SearchField.cellGet_eq_cellD hWF (by omega) (Int.ofNat_nonneg k)
    (by omega) (by omega)]
  unfold SearchField.cellD
  rw [Int.toNat_ofNat]
  have hmlen : (f.lines.map (fun l => l.getD k nullChar)).length = f.lines.length := by
    simp
  rw [getD_reverse _ _ (by omega), hmlen]
  have htn : ((f.height : Int) - (o : Int) - 1).toNat = f.height - 1 - o := by
    unfold SearchField.height at *
    omega
  rw [htn]
  have hidx : f.lines.length - 1 - o < f.lines.length := by omega
  rw [getD_map _ _ _ hidx nullChar []]
  unfold SearchField.height
  rfl

theorem SearchField.brStart_row (f : SearchField) (k : Nat) :
    (f.bottomrightDiagonalStart k).1
      = max (-((f.width : Int) - 1 - (k : Int))) 0 := rfl

theorem SearchField.brStart_col (f : SearchField) (k : Nat) :
    (f.bottomrightDiagonalStart k).2
      = max (-((f.width : Int) - 1 - (k : Int))) 0 + ((f.width : Int) - 1 - (k : Int)) := rfl

theorem SearchField.trStart_row (f : SearchField) (k : Nat) :
    (f.toprightDiagonalStart k).1 = min (k : Int) ((f.height : Int) - 1) := rfl

theorem SearchField.trStart_col (f : SearchField) (k : Nat) :
    (f.toprightDiagonalStart k).2
      = (k : Int) - min (k : Int) ((f.height : Int) - 1) := rfl

theorem SearchField.diagLen_eq (f : SearchField) (k : Nat) :
    f.diagonalLength k
      = min ((f.height : Int) - max (-((f.width : Int) - 1 - (k : Int))) 0)
          ((k : Int) + 1 - max (-((f.width : Int) - 1 - (k : Int))) 0) := by
  unfold SearchField.diagonalLength
  rw [SearchField.brStart_row]

theorem register_cell_BOTTOMRIGHT (f : SearchField) (hWF : f.WF) (k o : Nat)
    (hk : k < (f.searchRegisters .BOTTOMRIGHT).length)
    (ho : o < ((f.searchRegisters .BOTTOMRIGHT).getD k []).length) :
    f.cellGet (f.regularizeRegisterPosition .BOTTOMRIGHT k o).1
        (f.regularizeRegisterPosition .BOTTOMRIGHT k o).2
      = some (((f.searchRegisters .BOTTOMRIGHT).getD k []).getD o nullChar) := by
  simp only [SearchField.searchRegisters] at hk ho ⊢
  have hk2 : k < f.width + f.height - 1 := by
    simpa [SearchField.bottomrightLines] using hk
  rw [f.bottomrightLines_getD k hk2] at ho ⊢
  have ho2 : o < (f.diagonalLength k).toNat := by simpa using ho
  rw [getD_range_map _ _ _ _ ho2]
  have hreg1 : (f.regularizeRegisterPosition .BOTTOMRIGHT k o).1
      = (f.bottomrightDiagonalStart k).1 + (o : Int) := rfl
  have hreg2 : (f.regularizeRegisterPosition .BOTTOMRIGHT k o).2
      = (f.bottomrightDiagonalStart k).2 + (o : Int) := rfl
  rw [hreg1, hreg2]
  have hh : 0 < f.height := hWF.height_pos
  have hoL : (o : Int) < f.diagonalLength k := by omega
  rw [SearchField.diagLen_eq] at hoL
  have hb : 0 ≤ (f.bottomrightDiagonalStart k).1 + (o : Int)
      ∧ (f.bottomrightDiagonalStart k).1 + (o : Int) < (f.height : Int)
      ∧ 0 ≤ (f.bottomrightDiagonalStart k).2 + (o : Int)
      ∧ (f.bottomrightDiagonalStart k).2 + (o : Int) < (f.width : Int) := by
    rw [SearchField.brStart_row, SearchField.brStart_col]
    omega
  rw [SearchField.cellGet_eq_cellD hWF hb.1 hb.2.2.1 hb.2.1 hb.2.2.2]

theorem register_cell_TOPLEFT (f : SearchField) (hWF : f.WF) (k o : Nat)
    (hk : k < (f.searchRegisters .TOPLEFT).length)
    (ho : o < ((f.searchRegisters .TOPLEFT).getD k []).length) :
    f.cellGet (f.regularizeRegisterPosition .TOPLEFT k o).1
        (f.regularizeRegisterPosition .TOPLEFT k o).2
      = some (((f.searchRegisters .TOPLEFT).getD k []).getD o nullChar) := by
  simp only [SearchField.searchRegisters] at hk ho ⊢
  have hk3 : k < f.bottomrightLines.length := by
    rw [reverse_lines_length] at hk
    exact hk
  have hk2 : k < f.width + f.height - 1 := by
    simpa [SearchField.bottomrightLines] using hk3
  rw [reverse_lines_getD _ _ hk3] at ho ⊢
  rw [f.bottomrightLines_getD k hk2] at ho ⊢
  have ho2 : o < (f.diagonalLength k).toNat := by simpa using ho
  rw [getD_reverse _ _ (by simpa using ho2)]
  have hmlen : ((List.range (f.diagonalLength k).toNat).map (fun (i : Nat) =>
      f.cellD ((f.bottomrightDiagonalStart k).1 + (i : Int))
              ((f.bottomrightDiagonalStart k).2 + (i : Int)))).length
      = (f.diagonalLength k).toNat := by simp
  rw [hmlen]
  rw [getD_range_map _ _ _ _ (show (f.diagonalLength k).toNat - 1 - o
      < (f.diagonalLength k).toNat by omega)]
  have hreg1 : (f.regularizeRegisterPosition .TOPLEFT k o).1
      = (f.bottomrightDiagonalStart k).1 + f.diagonalLength k - (o : Int) - 1 := rfl
  have hreg2 : (f.regularizeRegisterPosition .TOPLEFT k o).2
      = (f.bottomrightDiagonalStart k).2 + f.diagonalLength k - (o : Int) - 1 := rfl
  rw [hreg1, hreg2]
  have harg1 : (f.bottomrightDiagonalStart k).1 + f.diagonalLength k - (o : Int) - 1
      = (f.bottomrightDiagonalStart k).1 + (((f.diagonalLength k).toNat - 1 - o : Nat) : Int) := by
    omega
  have harg2 : (f.bottomrightDiagonalStart k).2 + f.diagonalLength k - (o : Int) - 1
      = (f.bottomrightDiagonalStart k).2 + (((f.diagonalLength k).toNat - 1 - o : Nat) : Int) := by
    omega
  rw [harg1, harg2]
  have hh : 0 < f.height := hWF.height_pos
  have hmL : (((f.diagonalLength k).toNat - 1 - o : Nat) : Int) < f.diagonalLength k := by
    omega
  rw [SearchField.diagLen_eq] at hmL
  have hb : 0 ≤ (f.bottomrightDiagonalStart k).1 + (((f.diagonalLength k).toNat - 1 - o : Nat) : Int)
      ∧ (f.bottomrightDiagonalStart k).1 + (((f.diagonalLength k).toNat - 1 - o : Nat) : Int)
          < (f.height : Int)
      ∧ 0 ≤ (f.bottomrightDiagonalStart k).2 + (((f.diagonalLength k).toNat - 1 - o : Nat) : Int)
      ∧ (f.bottomrightDiagonalStart k).2 + (((f.diagonalLength k).toNat - 1 - o : Nat) : Int)
          < (f.width : Int) := by
    rw [SearchField.brStart_row, SearchField.brStart_col]
    rw [SearchField.diagLen_eq]
    omega
  rw [SearchField.cellGet_eq_cellD hWF hb.1 hb.2.2.1 hb.2.1 hb.2.2.2]

theorem register_cell_TOPRIGHT (f : SearchField) (hWF : f.WF) (k o : Nat)
    (hk : k < (f.searchRegisters .TOPRIGHT).length)
    (ho : o < ((f.searchRegisters .TOPRIGHT).getD k []).length) :
    f.cellGet (f.regularizeRegisterPosition .TOPRIGHT k o).1
        (f.regularizeRegisterPosition .TOPRIGHT k o).2
      = some (((f.searchRegisters .TOPRIGHT).getD k []).getD o nullChar) := by
  simp only [SearchField.searchRegisters] at hk ho ⊢
  have hk2 : k < f.width + f.height - 1 := by
    simpa [SearchField.toprightLines] using hk
  rw [f.toprightLines_getD k hk2] at ho ⊢
  have ho2 : o < (f.diagonalLength k).toNat := by simpa using ho
  rw [getD_range_map _ _ _ _ ho2]
  have hreg1 : (f.regularizeRegisterPosition .TOPRIGHT k o).1
      = (f.toprightDiagonalStart k).1 - (o : Int) := rfl
  have hreg2 : (f.regularizeRegisterPosition .TOPRIGHT k o).2
      = (f.toprightDiagonalStart k).2 + (o : Int) := rfl
  rw [hreg1, hreg2]
  have hh : 0 < f.height := hWF.height_pos
  have hoL : (o : Int) < f.diagonalLength k := by omega
  rw [SearchField.diagLen_eq] at hoL
  have hb : 0 ≤ (f.toprightDiagonalStart k).1 - (o : Int)
      ∧ (f.toprightDiagonalStart k).1 - (o : Int) < (f.height : Int)
      ∧ 0 ≤ (f.toprightDiagonalStart k).2 + (o : Int)
      ∧ (f.toprightDiagonalStart k).2 + (o : Int) < (f.width : Int) := by
    rw [SearchField.trStart_row, SearchField.trStart_col]
    omega
  rw [SearchField.cellGet_eq_cellD hWF hb.1 hb.2.2.1 hb.2.1 hb.2.2.2]

theorem register_cell_BOTTOMLEFT (f : SearchField) (hWF : f.WF) (k o : Nat)
    (hk : k < (f.searchRegisters .BOTTOMLEFT).length)
    (ho : o < ((f.searchRegisters .BOTTOMLEFT).getD k []).length) :
    f.cellGet (f.regularizeRegisterPosition .BOTTOMLEFT k o).1
        (f.regularizeRegisterPosition .BOTTOMLEFT k o).2
      = some (((f.searchRegisters .BOTTOMLEFT).getD k []).getD o nullChar) := by
  simp only [SearchField.searchRegisters] at hk ho ⊢
  have hk3 : k < f.toprightLines.length := by
    rw [reverse_lines_length] at hk
    exact hk
  have hk2 : k < f.width + f.height - 1 := by
    simpa [SearchField.toprightLines] using hk3
  rw [reverse_lines_getD _ _ hk3] at ho ⊢
  rw [f.toprightLines_getD k hk2] at ho ⊢
  have ho2 : o < (f.diagonalLength k).toNat := by simpa using ho
  rw [getD_reverse _ _ (by simpa using ho2)]
  have hmlen : ((List.range (f.diagonalLength k).toNat).map (fun (i : Nat) =>
      f.cellD ((f.toprightDiagonalStart k).1 - (i : Int))
              ((f.toprightDiagonalStart k).2 + (i : Int)))).length
      = (f.diagonalLength k).toNat := by simp
  rw [hmlen]
  rw [getD_range_map _ _ _ _ (show (f.diagonalLength k).toNat - 1 - o
      < (f.diagonalLength k).toNat by omega)]
  have hreg1 : (f.regularizeRegisterPosition .BOTTOMLEFT k o).1
      = (f.toprightDiagonalStart k).1 - f.diagonalLength k + (o : Int) + 1 := rfl
  have hreg2 : (f.regularizeRegisterPosition .BOTTOMLEFT k o).2
      = (f.toprightDiagonalStart k).2 + f.diagonalLength k - (o : Int) - 1 := rfl
  rw [hreg1, hreg2]
  have harg1 : (f.toprightDiagonalStart k).1 - f.diagonalLength k + (o : Int) + 1
      = (f.toprightDiagonalStart k).1 - (((f.diagonalLength k).toNat - 1 - o : Nat) : Int) := by
    omega
  have harg2 : (f.toprightDiagonalStart k).2 + f.diagonalLength k - (o : Int) - 1
      = (f.toprightDiagonalStart k).2 + (((f.diagonalLength k).toNat - 1 - o : Nat) : Int) := by
    omega
  rw [harg1, harg2]
  have hh : 0 < f.height := hWF.height_pos
  have hmL : (((f.diagonalLength k).toNat - 1 - o : Nat) : Int) < f.diagonalLength k := by
    omega
  rw [SearchField.diagLen_eq] at hmL
  have hb : 0 ≤ (f.toprightDiagonalStart k).1 - (((f.diagonalLength k).toNat - 1 - o : Nat) : Int)
      ∧ (f.toprightDiagonalStart k).1 - (((f.diagonalLength k).toNat - 1 - o : Nat) : Int)
          < (f.height : Int)
      ∧ 0 ≤ (f.toprightDiagonalStart k).2 + (((f.diagonalLength k).toNat - 1 - o : Nat) : Int)
      ∧ (f.toprightDiagonalStart k).2 + (((f.diagonalLength k).toNat - 1 - o : Nat) : Int)
          < (f.width : Int) := by
    rw [SearchField.trStart_row, SearchField.trStart_col]
    rw [SearchField.diagLen_eq]
    omega
  rw [SearchField.cellGet_eq_cellD hWF hb.1 hb.2.2.1 hb.2.1 hb.2.2.2]

theorem register_cell (f : SearchField) (hWF : f.WF) (d : Direction) (k o : Nat)
    (hk : k < (f.searchRegisters d).length)
    (ho : o < ((f.searchRegisters d).getD k []).length) :
    f.cellGet (f.regularizeRegisterPosition d k o).1
        (f.regularizeRegisterPosition d k o).2
      = some (((f.searchRegisters d).getD k []).getD o nullChar) := by
  cases d with
  | RIGHT => exact register_cell_RIGHT f hWF k o hk ho
  | BOTTOM => exact register_cell_BOTTOM f hWF k o hk ho
  | LEFT => exact register_cell_LEFT f hWF k o hk ho
  | TOP => exact register_cell_TOP f hWF k o hk ho
  | BOTTOMRIGHT => exact register_cell_BOTTOMRIGHT f hWF k o hk ho
  | BOTTOMLEFT => exact register_cell_BOTTOMLEFT f hWF k o hk ho
  | TOPRIGHT => exact register_cell_TOPRIGHT f hWF k o hk ho
  | TOPLEFT => exact register_cell_TOPLEFT f hWF k o hk ho

theorem regularize_step (f : SearchField) (d : Direction) (k o i : Nat) :
    (f.regularizeRegisterPosition d k (o + i)).1
        = (f.regularizeRegisterPosition d k o).1 + (i : Int) * (DIRECTION_DELTAS d).1
    ∧ (f.regularizeRegisterPosition d k (o + i)).2
        = (f.regularizeRegisterPosition d k o).2 + (i : Int) * (DIRECTION_DELTAS d).2 := by
  cases d <;>
    simp only [SearchField.regularizeRegisterPosition, DIRECTION_DELTAS] <;>
    constructor <;> push_cast <;> ring

/-- C1: for every grid, direction, line index and word found by line.find in that
direction's line, the coordinate returned by the regularization reads the word back
out of the padded grid rows by stepping with the direction's unit delta. -/
theorem C1_regularize_inverse (f : SearchField) (hWF : f.WF) (d : Direction)
    (k : Nat) (word : List Char) (o : Nat)
    (hk : k < (f.searchRegisters d).length)
    (hfind : findSub ((f.searchRegisters d).getD k []) word = some o) :
    ∀ i, i < word.length →
      f.cellGet ((f.regularizeRegisterPosition d k o).1 + (i : Int) * (DIRECTION_DELTAS d).1)
          ((f.regularizeRegisterPosition d k o).2 + (i : Int) * (DIRECTION_DELTAS d).2)
        = some (word.getD i nullChar) := by
  intro i hi
  have hbound := findSub_bound _ _ _ hfind
  have hread := findSub_reads _ _ _ hfind i hi
  have hoi : o + i < ((f.searchRegisters d).getD k []).length := by omega
  have hcell := register_cell f hWF d k (o + i) hk hoi
  rcases regularize_step f d k o i with ⟨h1, h2⟩
  rw [← h1, ← h2, hcell]
  congr 1
  rw [List.getD_eq_getElem _ _ hoi, List.getD_eq_getElem _ _ hi]
  rw [List.getElem?_eq_getElem hoi, List.getElem?_eq_getElem hi] at hread
  exact Option.some.inj hread

theorem SearchField.bottomrightLines_length (f : SearchField) :
    f.bottomrightLines.length = f.width + f.height - 1 := by
  simp [SearchField.bottomrightLines]

theorem SearchField.toprightLines_length (f : SearchField) :
    f.toprightLines.length = f.width + f.height - 1 := by
  simp [SearchField.toprightLines]

theorem SearchField.bottomrightLine_length (f : SearchField) (k : Nat)
    (hk : k < f.width + f.height - 1) :
    (f.bottomrightLines.getD k []).length = (f.diagonalLength k).toNat := by
  rw [f.bottomrightLines_getD k hk]
  simp

theorem SearchField.toprightLine_length (f : SearchField) (k : Nat)
    (hk : k < f.width + f.height - 1) :
    (f.toprightLines.getD k []).length = (f.diagonalLength k).toNat := by
  rw [f.toprightLines_getD k hk]
  simp

/-- C5: the two diagonal line families have width + height - 1 lines; the
BOTTOMRIGHT diagonal start cells, lengths and reading direction follow the stated
formulas and likewise for TOPRIGHT; TOPLEFT and BOTTOMLEFT are their reversals. -/
theorem C5_diagonal_families (f : SearchField) (hWF : f.WF) :
    (f.searchRegisters .BOTTOMRIGHT).length = f.width + f.height - 1
    ∧ (f.searchRegisters .TOPRIGHT).length = f.width + f.height - 1
    ∧ f.searchRegisters .TOPLEFT = reverse_lines (f.searchRegisters .BOTTOMRIGHT)
    ∧ f.searchRegisters .BOTTOMLEFT = reverse_lines (f.searchRegisters .TOPRIGHT)
    ∧ ∀ k, k < f.width + f.height - 1 →
        (f.bottomrightDiagonalStart k).1
            = max (-((f.width : Int) - 1 - (k : Int))) 0
        ∧ (f.bottomrightDiagonalStart k).2
            = (f.bottomrightDiagonalStart k).1 + ((f.width : Int) - 1 - (k : Int))
        ∧ f.diagonalLength k
            = min ((f.height : Int) - (f.bottomrightDiagonalStart k).1)
                ((k : Int) + 1 - (f.bottomrightDiagonalStart k).1)
        ∧ (f.toprightDiagonalStart k).1 = min (k : Int) ((f.height : Int) - 1)
        ∧ (f.toprightDiagonalStart k).2 = (k : Int) - (f.toprightDiagonalStart k).1
        ∧ ((f.searchRegisters .BOTTOMRIGHT).getD k []).length = (f.diagonalLength k).toNat
        ∧ ((f.searchRegisters .TOPRIGHT).getD k []).length = (f.diagonalLength k).toNat
        ∧ (∀ i, i < (f.diagonalLength k).toNat →
            f.cellGet ((f.bottomrightDiagonalStart k).1 + (i : Int))
                ((f.bottomrightDiagonalStart k).2 + (i : Int))
              = some (((f.searchRegisters .BOTTOMRIGHT).getD k []).getD i nullChar))
        ∧ (∀ i, i < (f.diagonalLength k).toNat →
            f.cellGet ((f.toprightDiagonalStart k).1 - (i : Int))
                ((f.toprightDiagonalStart k).2 + (i : Int))
              = some (((f.searchRegisters .TOPRIGHT).getD k []).getD i nullChar)) := by
  refine ⟨?_, ?_, rfl, rfl, ?_⟩
  · simp only [SearchField.searchRegisters]
    exact f.bottomrightLines_length
  · simp only [SearchField.searchRegisters]
    exact f.toprightLines_length
  · intro k hk
    have hbrlen : ((f.searchRegisters .BOTTOMRIGHT).getD k []).length
        = (f.diagonalLength k).toNat := by
      simp only [SearchField.searchRegisters]
      exact f.bottomrightLine_length k hk
    have htrlen : ((f.searchRegisters .TOPRIGHT).getD k []).length
        = (f.diagonalLength k).toNat := by
      simp only [SearchField.searchRegisters]
      exact f.toprightLine_length k hk
    refine ⟨rfl, rfl, rfl, rfl, rfl, hbrlen, htrlen, ?_, ?_⟩
    · intro i hi
      have hkreg : k < (f.searchRegisters .BOTTOMRIGHT).length := by
        simp only [SearchField.searchRegisters]
        rw [f.bottomrightLines_length]
        exact hk
      have hireg : i < ((f.searchRegisters .BOTTOMRIGHT).getD k []).length := by
        rw [hbrlen]
        exact hi
      exact register_cell_BOTTOMRIGHT f hWF k i hkreg hireg
    · intro i hi
      have hkreg : k < (f.searchRegisters .TOPRIGHT).length := by
        simp only [SearchField.searchRegisters]
        rw [f.toprightLines_length]
        exact hk
      have hireg : i < ((f.searchRegisters .TOPRIGHT).getD k []).length := by
        rw [htrlen]
        exact hi
      exact register_cell_TOPRIGHT f hWF k i hkreg hireg

theorem scanLine_perm (f : SearchField) (d : Direction) (li : Nat) (ln : List Char)
    (acc : List (List Char × WordPosition) × List (List Char)) :
    ((f.scanLine d li ln acc).1.map Prod.fst ++ (f.scanLine d li ln acc).2).Perm
      (acc.1.map Prod.fst ++ acc.2) := by
  simp only [SearchField.scanLine, List.map_append, List.map_map]
  have hcomp : (Prod.fst ∘ fun w =>
      (w, (⟨(f.regularizeRegisterPosition d li ((findSub ln w).getD 0)).1,
           (f.regularizeRegisterPosition d li ((findSub ln w).getD 0)).2,
           d⟩ : WordPosition))) = fun (w : List Char) => w := rfl
  rw [hcomp, List.map_id', List.append_assoc]
  exact List.Perm.append_left _ (List.filter_append_perm _ _)

theorem scanDirection_perm (f : SearchField)
    (acc : List (List Char × WordPosition) × List (List Char)) (d : Direction) :
    ((f.scanDirection acc d).1.map Prod.fst ++ (f.scanDirection acc d).2).Perm
      (acc.1.map Prod.fst ++ acc.2) := by
  unfold SearchField.scanDirection
  generalize (f.searchRegisters d).enum = ps
  induction ps generalizing acc with
  | nil => exact List.Perm.refl _
  | cons p rest ih =>
    simp only [List.foldl_cons]
    exact (ih _).trans (scanLine_perm f d p.1 p.2 acc)

theorem scanAll_perm (f : SearchField) (words : List (List Char))
    (dirs : List Direction) :
    ((f.scanAll words dirs).1.map Prod.fst ++ (f.scanAll words dirs).2).Perm
      (dedupFirst words) := by
  unfold SearchField.scanAll
  have hgen : ∀ (ds : List Direction)
      (acc : List (List Char × WordPosition) × List (List Char)),
      ((ds.foldl f.scanDirection acc).1.map Prod.fst
          ++ (ds.foldl f.scanDirection acc).2).Perm
        (acc.1.map Prod.fst ++ acc.2) := by
    intro ds
    induction ds with
    | nil => intro acc; exact List.Perm.refl _
    | cons d rest ih =>
      intro acc
      simp only [List.foldl_cons]
      exact (ih _).trans (scanDirection_perm f acc d)
  simpa using hgen dirs ([], dedupFirst words)

theorem dedupFirst_nodup (words : List (List Char)) : (dedupFirst words).Nodup := by
  unfold dedupFirst
  have hgen : ∀ (ws acc : List (List Char)), acc.Nodup →
      (ws.foldl (fun acc w => if w ∈ acc then acc else acc ++ [w]) acc).Nodup := by
    intro ws
    induction ws with
    | nil => intro acc h; exact h
    | cons w rest ih =>
      intro acc h
      simp only [List.foldl_cons]
      by_cases hw : w ∈ acc
      · rw [if_pos hw]
        exact ih acc h
      · rw [if_neg hw]
        refine ih _ (List.nodup_append.mpr ⟨h, List.nodup_singleton w, ?_⟩)
        intro x hx hxw
        rw [List.mem_singleton] at hxw
        subst hxw
        exact hw hx
  exact hgen words [] List.nodup_nil

theorem scanAll_keys_nodup (f : SearchField) (words : List (List Char))
    (dirs : List Direction) :
    ((f.scanAll words dirs).1.map Prod.fst ++ (f.scanAll words dirs).2).Nodup :=
  (scanAll_perm f words dirs).symm.nodup (dedupFirst_nodup words)

theorem find_words_keys_nodup (f : SearchField) (words : List (List Char))
    (nf mf : String) (dirs : Option (List Direction))
    (res : List (List Char × Option WordPosition))
    (h : f.find_words words nf mf dirs = .ok res) :
    (res.map Prod.fst).Nodup := by
  have hnodup := scanAll_keys_nodup f words (dirs.getD registerKeyOrder)
  have hcomp : (Prod.fst ∘ fun (p : List Char × WordPosition) => (p.1, some p.2))
      = Prod.fst := rfl
  unfold SearchField.find_words at h
  by_cases h1 : mf ≠ "first"
  · rw [if_pos h1] at h
    simp at h
  · rw [if_neg h1] at h
    by_cases h2 : (f.scanAll words (dirs.getD registerKeyOrder)).2 = []
    · rw [if_pos h2] at h
      simp only [Except.ok.injEq] at h
      subst h
      simp only [List.map_map, hcomp]
      exact hnodup.sublist (List.sublist_append_left _ _)
    · rw [if_neg h2] at h
      by_cases h3 : nf = "error"
      · rw [if_pos h3] at h
        simp at h
      · rw [if_neg h3] at h
        by_cases h4 : nf = "keep"
        · rw [if_pos h4] at h
          simp only [Except.ok.injEq] at h
          subst h
          simp only [List.map_append, List.map_map, hcomp]
          have hcomp2 : (Prod.fst ∘ fun (w : List Char) =>
              (w, (none : Option WordPosition))) = fun (w : List Char) => w := rfl
          rw [hcomp2, List.map_id']
          exact hnodup
        · rw [if_neg h4] at h
          by_cases h5 : nf = "ignore"
          · rw [if_pos h5] at h
            simp only [Except.ok.injEq] at h
            subst h
            simp only [List.map_map, hcomp]
            exact hnodup.sublist (List.sublist_append_left _ _)
          · rw [if_neg h5] at h
            simp at h

theorem le_foldl_max (xs : List Nat) (a : Nat) : a ≤ xs.foldl Nat.max a := by
  induction xs generalizing a with
  | nil => exact Nat.le_refl a
  | cons x rest ih =>
    simp only [List.foldl_cons]
    exact Nat.le_trans (Nat.le_max_left a x) (ih (Nat.max a x))

theorem mem_le_foldl_max (xs : List Nat) (a x : Nat) (hx : x ∈ xs) :
    x ≤ xs.foldl Nat.max a := by
  induction xs generalizing a with
  | nil => simp at hx
  | cons y rest ih =>
    simp only [List.foldl_cons]
    rcases List.mem_cons.mp hx with h | h
    · subst h
      exact Nat.le_trans (Nat.le_max_right a x) (le_foldl_max rest _)
    · exact ih _ h

theorem le_listMax (xs : List Nat) (x : Nat) (hx : x ∈ xs) : x ≤ listMax xs :=
  mem_le_foldl_max xs 0 x hx

theorem foldl_max_le (xs : List Nat) (a L : Nat) (ha : a ≤ L)
    (hall : ∀ x ∈ xs, x ≤ L) : xs.foldl Nat.max a ≤ L := by
  induction xs generalizing a with
  | nil => exact ha
  | cons x rest ih =>
    simp only [List.foldl_cons]
    refine ih _ (Nat.max_le.mpr ⟨ha, hall x (List.mem_cons_self x rest)⟩) ?_
    intro y hy
    exact hall y (List.mem_cons_of_mem x hy)

theorem listMax_all_eq (xs : List Nat) (L : Nat) (hne : xs ≠ [])
    (hall : ∀ x ∈ xs, x = L) : listMax xs = L := by
  cases xs with
  | nil => exact absurd rfl hne
  | cons x rest =>
    refine Nat.le_antisymm ?_ ?_
    · refine foldl_max_le _ _ _ (Nat.zero_le L) ?_
      intro y hy
      exact Nat.le_of_eq (hall y hy)
    · rw [← hall x (List.mem_cons_self x rest)]
      exact le_listMax _ _ (List.mem_cons_self x rest)

theorem make_spec (input : List (List Char)) (f : SearchField)
    (hmk : SearchField.make input = some f) :
    input ≠ []
    ∧ f.width = listMax (input.map List.length)
    ∧ f.lines = input.map (fun ln => ln ++ List.replicate (f.width - ln.length) nullChar)
    ∧ ∀ l ∈ f.lines, l.length = f.width := by
  cases input with
  | nil => simp [SearchField.make] at hmk
  | cons a rest =>
    simp only [SearchField.make, Option.some.injEq] at hmk
    subst hmk
    refine ⟨List.cons_ne_nil a rest, rfl, rfl, ?_⟩
    intro l hl
    rcases List.mem_map.mp hl with ⟨ln, hln, rfl⟩
    have hle : ln.length ≤ listMax ((a :: rest).map List.length) :=
      le_listMax _ _ (List.mem_map_of_mem List.length hln)
    simp only [List.length_append, List.length_replicate]
    omega

theorem make_WF (input : List (List Char)) (f : SearchField)
    (hmk : SearchField.make input = some f) : f.WF := by
  obtain ⟨hne, hw, hlines, hlen⟩ := make_spec input f hmk
  refine ⟨?_, hlen⟩
  rw [hlines]
  intro hcontra
  exact hne (List.map_eq_nil_iff.mp hcontra)

theorem mem_joinNewline (ls : List (List Char)) (c : Char) (hc : c ∈ joinNewline ls) :
    c = '\n' ∨ ∃ l ∈ ls, c ∈ l := by
  induction ls with
  | nil => simp [joinNewline] at hc
  | cons l rest ih =>
    cases rest with
    | nil =>
      right
      exact ⟨l, List.mem_cons_self l [], by simpa [joinNewline] using hc⟩
    | cons l2 rest2 =>
      rw [joinNewline] at hc
      rcases List.mem_append.mp hc with h | h
      · right
        exact ⟨l, List.mem_cons_self _ _, h⟩
      · rcases List.mem_cons.mp h with h | h
        · left
          exact h
        · rcases ih h with h2 | ⟨l3, hl3, hcl3⟩
          · left
            exact h2
          · right
            exact ⟨l3, List.mem_cons_of_mem l hl3, hcl3⟩

/-- C1 witness: the word RQ is found in padded row 1 of the small grid at offset 1,
and the regularized position reads the word back from the grid. -/
theorem C1_regularize_inverse_witness :
    smallField.cellGet
        ((smallField.regularizeRegisterPosition .RIGHT 1 1).1
          + ((0 : Nat) : Int) * (DIRECTION_DELTAS .RIGHT).1)
        ((smallField.regularizeRegisterPosition .RIGHT 1 1).2
          + ((0 : Nat) : Int) * (DIRECTION_DELTAS .RIGHT).2)
      = some ("RQ".toList.getD 0 nullChar) :=
  C1_regularize_inverse smallField (by decide) .RIGHT 1 "RQ".toList 1
    (by decide) (by decide) 0 (by decide)

/-- C2: searching the 3 by 3 grid GHU BRQ HJI for BRQ, JR, UQ, JH yields exactly the
expected position mapping, mask string and remaining text GHI. -/
theorem C2_small_scenario :
    SearchField.make ["GHU".toList, "BRQ".toList, "HJI".toList] = some smallField
    ∧ smallField.find_words ["BRQ".toList, "JR".toList, "UQ".toList, "JH".toList]
        "error" "first" none = .ok smallExpected
    ∧ smallField.solve ["BRQ".toList, "JR".toList, "UQ".toList, "JH".toList]
        "error" "first" none = .ok smallSolution
    ∧ smallSolution.string_mask 'X' ' ' = "  X\nXXX\nXX ".toList
    ∧ smallSolution.remaining_text = "GHI".toList :=
  ⟨by decide, by decide, by decide, by decide, by decide⟩

/-- C3 counterexample: on the grid AX BA with word AB the default search resolves AB
by LEFT at (1,1), while the direction order claimed by the specification (BOTTOM
scanned before LEFT) would resolve it by BOTTOM at (0,0), so the default order is
not the claimed one. -/
theorem C3_counterexample_order :
    SearchField.make ["AX".toList, "BA".toList] = some cexField
    ∧ cexField.find_words ["AB".toList] "error" "first" none
        = .ok [("AB".toList, some ⟨1, 1, .LEFT⟩)]
    ∧ cexField.find_words ["AB".toList] "error" "first" (some claimedDirectionOrder)
        = .ok [("AB".toList, some ⟨0, 0, .BOTTOM⟩)]
    ∧ cexField.find_words ["AB".toList] "error" "first" none
        ≠ cexField.find_words ["AB".toList] "error" "first" (some claimedDirectionOrder) :=
  ⟨by decide, by decide, by decide, by decide⟩

/-- C3 amended: the default direction scan order is the registers insertion order
RIGHT, LEFT, BOTTOM, TOP, BOTTOMRIGHT, TOPLEFT, TOPRIGHT, BOTTOMLEFT; within it the
scan takes lines in increasing index and leftmost occurrences, and a found word is
removed from the pool, so every word is recorded at most once. -/
theorem C3_amended_default_order (f : SearchField) (words : List (List Char))
    (nf mf : String) (res : List (List Char × Option WordPosition)) :
    f.find_words words nf mf none = f.find_words words nf mf (some registerKeyOrder)
    ∧ (f.find_words words nf mf none = .ok res → (res.map Prod.fst).Nodup) :=
  ⟨rfl, fun h => find_words_keys_nodup f words nf mf none res h⟩

/-- C3 witness: the default order equals the register key order on a concrete search
and the concrete result binds each word once. -/
theorem C3_amended_default_order_witness :
    (smallField.find_words ["BRQ".toList] "error" "first" none
      = smallField.find_words ["BRQ".toList] "error" "first" (some registerKeyOrder))
    ∧ (([("BRQ".toList, some (⟨1, 0, .RIGHT⟩ : WordPosition))]
        : List (List Char × Option WordPosition)).map Prod.fst).Nodup :=
  ⟨(C3_amended_default_order smallField ["BRQ".toList] "error" "first"
      [("BRQ".toList, some ⟨1, 0, .RIGHT⟩)]).1,
   (C3_amended_default_order smallField ["BRQ".toList] "error" "first"
      [("BRQ".toList, some ⟨1, 0, .RIGHT⟩)]).2 (by decide)⟩

/-- C4: searching HAM in the small grid fails naming HAM under the error policy,
yields HAM bound to absent under keep, and yields the empty mapping under ignore. -/
theorem C4_not_found_policies :
    smallField.find_words ["HAM".toList] "error" "first" none
        = .error (.wordsNotFound ["HAM".toList])
    ∧ smallField.find_words ["HAM".toList] "keep" "first" none
        = .ok [("HAM".toList, none)]
    ∧ smallField.find_words ["HAM".toList] "ignore" "first" none = .ok [] :=
  ⟨by decide, by decide, by decide⟩

/-- C5 witness: the small grid has width + height - 1 BOTTOMRIGHT diagonals. -/
theorem C5_diagonal_families_witness :
    (smallField.searchRegisters .BOTTOMRIGHT).length
      = smallField.width + smallField.height - 1 :=
  (C5_diagonal_families smallField (by decide)).1

/-- C6: construction pads every row on the right with the sentinel to the maximum
input row length, so every stored row has length exactly the width; the structure is
immutable, so the invariant holds for the lifetime of the grid. -/
theorem C6_construction_invariant (input : List (List Char)) (f : SearchField)
    (hmk : SearchField.make input = some f) :
    f.width = listMax (input.map List.length)
    ∧ f.lines = input.map (fun ln => ln ++ List.replicate (f.width - ln.length) nullChar)
    ∧ ∀ l ∈ f.lines, l.length = f.width := by
  obtain ⟨_, hw, hlines, hlen⟩ := make_spec input f hmk
  exact ⟨hw, hlines, hlen⟩

/-- C6 witness: constructing from rows AB and C pads the second row. -/
theorem C6_construction_invariant_witness :
    (⟨[['A', 'B'], ['C', nullChar]], 2⟩ : SearchField).width
      = listMax ([['A', 'B'], ['C']].map List.length) :=
  (C6_construction_invariant [['A', 'B'], ['C']]
    ⟨[['A', 'B'], ['C', nullChar]], 2⟩ (by decide)).1

/-- C7: for equal-length sentinel-free input rows, rendering the constructed grid
as text recovers the newline-joined original rows. -/
theorem C7_as_text_roundtrip (input : List (List Char)) (L : Nat) (f : SearchField)
    (hlen : ∀ l ∈ input, l.length = L)
    (hclean : ∀ l ∈ input, nullChar ∉ l)
    (hmk : SearchField.make input = some f) :
    f.as_text ' ' = joinNewline input := by
  obtain ⟨hne, hw, hlines, _⟩ := make_spec input f hmk
  have hwL : f.width = L := by
    rw [hw]
    refine listMax_all_eq _ _ ?_ ?_
    · intro hcontra
      exact hne (List.map_eq_nil_iff.mp hcontra)
    · intro x hx
      rcases List.mem_map.mp hx with ⟨l, hl, rfl⟩
      exact hlen l hl
  have hlines2 : f.lines = input := by
    rw [hlines]
    have hcong : ∀ ln ∈ input,
        ln ++ List.replicate (f.width - ln.length) nullChar = ln := by
      intro ln hln
      rw [hlen ln hln, hwL]
      simp
    calc input.map (fun ln => ln ++ List.replicate (f.width - ln.length) nullChar)
        = input.map (fun ln => ln) := List.map_congr_left hcong
      _ = input := List.map_id' input
  unfold SearchField.as_text
  rw [hlines2]
  have hmap : ∀ c ∈ joinNewline input, (if c = nullChar then ' ' else c) = c := by
    intro c hc
    rcases mem_joinNewline input c hc with h | ⟨l, hl, hcl⟩
    · subst h
      decide
    · rw [if_neg]
      intro hceq
      subst hceq
      exact hclean l hl hcl
  rw [List.map_congr_left hmap, List.map_id']

/-- C7 witness: a concrete 2 by 2 round trip. -/
theorem C7_as_text_roundtrip_witness :
    (⟨[['A', 'B'], ['C', 'D']], 2⟩ : SearchField).as_text ' '
      = joinNewline [['A', 'B'], ['C', 'D']] :=
  C7_as_text_roundtrip [['A', 'B'], ['C', 'D']] 2 ⟨[['A', 'B'], ['C', 'D']], 2⟩
    (by decide) (by decide) (by decide)

/-- C8 counterexample: the bigger scenario resolves its six words, but the found
directions do not cover RIGHT, so they do not cover all eight directions. -/
theorem C8_counterexample_directions :
    bigField.find_words bigWords "error" "first" none = .ok bigExpected
    ∧ Direction.RIGHT ∉ positionsDirections bigExpected :=
  ⟨by decide, by decide⟩

/-- C8 amended: the bigger scenario resolves every word to a found position, the six
found directions are pairwise distinct (covering six of the eight directions, all but
RIGHT and TOP), and the remaining text is RUZQWRDIYU. -/
theorem C8_amended_scenario :
    SearchField.make ["RUSZQ".toList, "WANAR".toList, "XNUVE".toList, "DIYFU".toList]
        = some bigField
    ∧ bigField.solve bigWords "error" "first" none = .ok bigSolution
    ∧ bigSolution.word_positions = bigExpected
    ∧ positionsDirections bigExpected
        = [.LEFT, .BOTTOM, .BOTTOMRIGHT, .TOPLEFT, .TOPRIGHT, .BOTTOMLEFT]
    ∧ (positionsDirections bigExpected).Nodup
    ∧ bigSolution.remaining_text = "RUZQWRDIYU".toList :=
  ⟨by decide, by decide, rfl, by decide, by decide, by decide⟩

/-- C9: constructing a grid from an empty row sequence fails and produces no grid. -/
theorem C9_empty_input_fails : SearchField.make [] = none := rfl

/-- C10: when the scan leaves no word unmatched, find_words succeeds with the full
mapping regardless of the not_found argument, which is never inspected. -/
theorem C10_policy_checked_lazily (f : SearchField) (words : List (List Char))
    (nf : String) (dirs : Option (List Direction))
    (h : (f.scanAll words (dirs.getD registerKeyOrder)).2 = []) :
    f.find_words words nf "first" dirs
      = .ok ((f.scanAll words (dirs.getD registerKeyOrder)).1.map
          (fun p => (p.1, some p.2))) := by
  unfold SearchField.find_words
  rw [if_neg (by simp), if_pos h]

/-- C10 witness: a malformed policy string is accepted when every word is found. -/
theorem C10_policy_checked_lazily_witness :
    smallField.find_words ["BRQ".toList] "banana" "first" none
      = .ok ((smallField.scanAll ["BRQ".toList]
          ((none : Option (List Direction)).getD registerKeyOrder)).1.map
          (fun p => (p.1, some p.2))) :=
  C10_policy_checked_lazily smallField ["BRQ".toList] "banana" none (by decide)
